import Mathlib

/-!
Verification development for the EchoNote lecture-segmentation pipeline.

Shallow embedding of the worker pipeline
(`worker/transcribe_and_segment.py`, `worker/summarize_chapters.py`) and of
the task bookkeeping in `server.py`.  Machine floats are idealised as exact
rationals (ℚ); the IEEE `nan` value produced by `0.0/0.0` is modelled with
`Option` (`none` = NaN), and every comparison against NaN is `false`, as in
IEEE 754.  The python `while` loop of the window builder is modelled with
explicit fuel: the builder returns `none` exactly when the fuel budget is
exhausted, and the fuel chosen by `create_sliding_windows` is sufficient
for every terminating run, so `none` for all fuel values models divergence.
-/

namespace EchoNote

/-- TranscriptSegment from `segments.json`: `{id, start, end, text}`.
The python float times are modelled as rationals; `end_` models the
`end` field (a Lean keyword). -/
structure Segment where
  id : ℕ
  start : ℚ
  end_ : ℚ
  text : String
deriving DecidableEq, Repr

/-- Window produced by `create_sliding_windows`:
`{start, end, text, segment_ids}`. -/
structure Window where
  start : ℚ
  end_ : ℚ
  text : String
  segment_ids : List ℕ
deriving DecidableEq, Repr

/-- Raw chapter as produced by `merge_windows_into_chapters` and written to
`chapters_raw.json`. -/
structure Chapter where
  chapter_id : ℕ
  start : ℚ
  end_ : ℚ
  segment_ids : List ℕ
  text : String
deriving DecidableEq, Repr

/-- Predicate of `transcribe_and_segment.py:157`: a segment belongs to the
window `[cur, wend)` iff `seg.start < wend` and `seg.end > cur`. -/
def segInWindow (cur wend : ℚ) (s : Segment) : Bool :=
  decide (s.start < wend ∧ cur < s.end_)

/-- Body of one iteration of the `while current_start < total_duration`
loop of `create_sliding_windows`: the window built at cursor `cur`. -/
def mkWindow (segs : List Segment) (cur wend : ℚ) : Window :=
  { start := cur
    end_ := wend
    text := String.intercalate " " ((segs.filter (segInWindow cur wend)).map (·.text))
    segment_ids := (segs.filter (segInWindow cur wend)).map (·.id) }

/-- Fuel-indexed model of the windowing `while` loop
(`transcribe_and_segment.py:147-169`).  One unit of fuel is spent per
loop-condition check; `none` means the fuel ran out before the loop
finished.  The loop advances the cursor by `window_size - overlap` and
keeps a window only when its segment list is non-empty
(`if window_text:` on line 161). -/
def cswFuel (segs : List Segment) (window_size overlap total : ℚ) :
    ℕ → ℚ → Option (List Window)
  | 0, _ => none
  | fuel + 1, cur =>
    if cur < total then
      let wend := min (cur + window_size) total
      let matched := segs.filter (segInWindow cur wend)
      match cswFuel segs window_size overlap total fuel (cur + (window_size - overlap)) with
      | none => none
      | some rest =>
        some (if matched.isEmpty then rest else mkWindow segs cur wend :: rest)
    else
      some []

/-- Model of `create_sliding_windows(segments, window_size, overlap)`.
Empty input returns `some []` (line 138-139).  Otherwise
`total = segments[-1].end` and the loop runs from cursor 0.  The fuel
`⌈total/step⌉ + 1` covers every iteration of a terminating loop
(`step > 0`); when `step ≤ 0` the loop of the source never terminates and
this model returns `none` for every fuel value. -/
def create_sliding_windows (segs : List Segment) (window_size overlap : ℚ) :
    Option (List Window) :=
  match segs.getLast? with
  | none => some []
  | some lastSeg =>
    let total := lastSeg.end_
    let step := window_size - overlap
    let fuel := if 0 < step then (⌈total / step⌉).toNat + 1 else 1
    cswFuel segs window_size overlap total fuel 0

/-- Dot product `np.dot(a, b)` of two rational vectors. -/
def dot (a b : List ℚ) : ℚ :=
  (List.zipWith (· * ·) a b).sum

/-- Squared euclidean norm, so that `np.linalg.norm a = Real.sqrt (normSq a)`. -/
def normSq (a : List ℚ) : ℚ :=
  dot a a

/-- Float value of `np.dot(a,b) / (np.linalg.norm(a) * np.linalg.norm(b))`
(`transcribe_and_segment.py:201-203`), with `none` modelling the IEEE NaN
produced when the denominator is zero (either vector is the zero vector,
so the numerator is then zero as well and the float quotient is `0.0/0.0`). -/
noncomputable def cosSim (a b : List ℚ) : Option ℝ :=
  if normSq a * normSq b = 0 then none
  else some ((dot a b : ℝ) / (Real.sqrt (normSq a : ℝ) * Real.sqrt (normSq b : ℝ)))

/-- Decidable form of the comparison `cos_sim < threshold` performed on
line 209 of the source.  When the norm product is zero the float value is
NaN and the IEEE comparison is `false`; otherwise the comparison of
`dot/(‖a‖·‖b‖)` with `t` is expressed by sign analysis and squaring,
avoiding the irrational square root.  `cosSimLtB_iff_cosSim_lt` below
proves this Boolean equal to the comparison of the real value `cosSim`. -/
def cosSimLtB (a b : List ℚ) (t : ℚ) : Bool :=
  let d := dot a b
  let q := normSq a * normSq b
  if q = 0 then false
  else if 0 ≤ t then decide (d < 0) || decide (d ^ 2 < t ^ 2 * q)
  else decide (d < 0) && decide (t ^ 2 * q < d ^ 2)

/-- Accumulation of boundary indices by the
`for i, sim in enumerate(similarities): if sim < threshold: append(i+1)`
loop (`transcribe_and_segment.py:208-210`), with `i` starting at the given
counter.  The Booleans are the elementwise results of `sim < threshold`. -/
def boundaryScan : ℕ → List Bool → List ℕ
  | _, [] => []
  | i, b :: bs =>
    if b then (i + 1) :: boundaryScan (i + 1) bs else boundaryScan (i + 1) bs

/-- Model of `detect_topic_boundaries(embeddings, threshold)`
(`transcribe_and_segment.py:185-213`): fewer than two embeddings return
`[]`; otherwise the result is `0` followed by every index `i+1` whose
adjacent cosine similarity compares below the threshold. -/
def detect_topic_boundaries (embs : List (List ℚ)) (threshold : ℚ) : List ℕ :=
  if embs.length < 2 then []
  else 0 :: boundaryScan 0 (List.zipWith (fun a b => cosSimLtB a b threshold) embs embs.tail)

/-- Python `sorted(list(set(xs)))`: duplicates removed, ascending order. -/
def sortedDedup (l : List ℕ) : List ℕ :=
  List.insertionSort (· ≤ ·) l.dedup

/-- Model of `merge_windows_into_chapters(windows, boundaries)`
(`transcribe_and_segment.py:216-247`).  For boundary index `i` the slice
runs from `boundaries[i]` to `boundaries[i+1]` (or `len(windows)` for the
last boundary); empty slices are skipped (`continue`), `chapter_id` is the
boundary position `i`, `segment_ids` is the sorted duplicate-free union of
the member windows and `text` joins the member window texts. -/
def merge_windows_into_chapters (ws : List Window) (bs : List ℕ) : List Chapter :=
  (List.zip bs (bs.tail ++ [ws.length])).enum.filterMap (fun p =>
    match (ws.drop p.2.1).take (p.2.2 - p.2.1) with
    | [] => none
    | w :: rest =>
      some
        { chapter_id := p.1
          start := w.start
          end_ := ((w :: rest).getLast (List.cons_ne_nil w rest)).end_
          segment_ids := sortedDedup (((w :: rest).map (·.segment_ids)).flatten)
          text := String.intercalate " " ((w :: rest).map (·.text)) })

/-- Python dict `{seg['id']: seg for seg in segments}` built in list order:
a later segment with the same id overwrites an earlier one. -/
def segDict : List Segment → ℕ → Option Segment
  | [], _ => none
  | s :: rest, i =>
    match segDict rest i with
    | some r => some r
    | none => if i = s.id then some s else none

/-- Model of `reconstruct_chapter_text(chapter, segments)`
(`transcribe_and_segment.py:250-254`): space-join of the texts of the ids
of `chapter.segment_ids` found in the dict, ids absent from the dict being
skipped. -/
def reconstruct_chapter_text (c : Chapter) (segs : List Segment) : String :=
  String.intercalate " " (c.segment_ids.filterMap (fun i => (segDict segs i).map (·.text)))

/-- Steps 3-7 of `main` (`transcribe_and_segment.py:376-395`): build
windows, detect boundaries on the window embeddings (the embeddings are an
input here, standing for the external embedding model), merge into
chapters and replace each chapter text by its reconstruction from the
original segments.  `none` propagates non-termination of the window loop. -/
def segment_pipeline (segs : List Segment) (embs : List (List ℚ))
    (window_size overlap threshold : ℚ) : Option (List Chapter) :=
  (create_sliding_windows segs window_size overlap).map (fun ws =>
    (merge_windows_into_chapters ws (detect_topic_boundaries embs threshold)).map
      (fun c => { c with text := reconstruct_chapter_text c segs }))

/-- Parsed JSON object returned by an LLM call in
`summarize_chapters.py`; every field is optional because `json.loads`
gives no shape guarantee (the consumer reads each key with `.get` and a
default). -/
structure LLMJson where
  title? : Option String
  summary? : Option String
  importance? : Option ℚ
  key_points? : Option (List String)
deriving DecidableEq, Repr

/-- Enriched chapter written to `chapters.json`
(`summarize_chapters.py:181-201`): the four original fields plus the four
summary fields.  The source drops `segment_ids`, so the structure has no
such field. -/
structure EnrichedChapter where
  chapter_id : ℕ
  start : ℚ
  end_ : ℚ
  text : String
  title : String
  summary : String
  importance : ℚ
  key_points : List String
deriving DecidableEq, Repr

/-- Model of `summarize_with_gemini(chapter)`
(`summarize_chapters.py:61-114`): the external API call and JSON parse are
abstracted into `response` (`none` = the `try` block raised); on failure
the deterministic fallback dict of lines 109-114 is returned. -/
def summarize_with_gemini (response : Option LLMJson) (c : Chapter) : LLMJson :=
  match response with
  | some r => r
  | none =>
    { title? := some ("Chapter " ++ toString (c.chapter_id + 1))
      summary? := some "Summary unavailable due to API error."
      importance? := some (1 / 2)
      key_points? := some ["Content transcribed but not summarized"] }

/-- Model of `summarize_with_ollama(chapter)`
(`summarize_chapters.py:117-161`): on failure the fallback dict of lines
156-161 is returned, whose summary string differs from the Gemini one. -/
def summarize_with_ollama (response : Option LLMJson) (c : Chapter) : LLMJson :=
  match response with
  | some r => r
  | none =>
    { title? := some ("Chapter " ++ toString (c.chapter_id + 1))
      summary? := some "Summary unavailable due to processing error."
      importance? := some (1 / 2)
      key_points? := some ["Content transcribed but not summarized"] }

/-- Body of the per-chapter loop of `summarize_chapters`
(`summarize_chapters.py:180-203`): keep `chapter_id`, `start`, `end` and
`text`, call one of the two summarizers, and read the four summary fields
with the defaults of lines 197-200. -/
def enrichOne (use_gemini : Bool) (response : Option LLMJson) (c : Chapter) :
    EnrichedChapter :=
  let s := if use_gemini then summarize_with_gemini response c
           else summarize_with_ollama response c
  { chapter_id := c.chapter_id
    start := c.start
    end_ := c.end_
    text := c.text
    title := s.title?.getD ("Chapter " ++ toString (c.chapter_id + 1))
    summary := s.summary?.getD ""
    importance := s.importance?.getD (1 / 2)
    key_points := s.key_points?.getD [] }

/-- Model of `summarize_chapters(chapters, use_gemini, ...)`
(`summarize_chapters.py:164-205`): one LLM call per chapter, in input
order.  The outcome of the n-th external call is `responses n`. -/
def summarize_chapters (chapters : List Chapter) (responses : ℕ → Option LLMJson)
    (use_gemini : Bool) : List EnrichedChapter :=
  chapters.enum.map (fun p => enrichOne use_gemini (responses p.1) p.2)

/-- External calls a pipeline run can perform: ffmpeg audio extraction,
Whisper transcription, the sentence-embedding model, the LLM summarizer. -/
inductive ExtCall where
  | extractAudio
  | transcribe
  | embed
  | summarize
deriving DecidableEq, Repr

/-- External-call trace of `transcribe_and_segment.main`
(`transcribe_and_segment.py:328-400`) as a function of which artifacts
already exist: audio extraction is gated on the audio file (line 329),
transcription on `segments.json` (line 335), and `compute_embeddings` —
which loads and runs the sentence-transformer model — is executed
unconditionally in step 4 (line 385).  No summarizer runs in this
program.  The existence of `chapters_raw.json` is never consulted. -/
def transcribe_main_calls (audioExists segmentsExists : Bool) : List ExtCall :=
  (if audioExists then [] else [ExtCall.extractAudio]) ++
    (if segmentsExists then [] else [ExtCall.transcribe]) ++ [ExtCall.embed]

/-- External-call trace of `summarize_chapters.main`
(`summarize_chapters.py:208-307`) on a `chapters_raw.json` holding `n`
chapters: one summarizer call per chapter, with no check whether
`chapters.json` already exists. -/
def summarize_main_calls (n : ℕ) : List ExtCall :=
  List.replicate n ExtCall.summarize

/-- Task status enum of the server task records. -/
inductive TStatus where
  | pending
  | running
  | completed
  | failed
deriving DecidableEq, Repr

/-- Observable fields of a task record in the server `tasks` dict
(`server.py:213-219`, `55-67`); fields irrelevant to the claims
(`task_id`, `type`, `lecture_id`, `created_at`) are omitted.  A `none`
optional field models an absent dict key. -/
structure TaskRec where
  status : TStatus
  result : Option String
  error : Option String
  completed_at : Option String
deriving DecidableEq, Repr

/-- Task record as registered by the submission endpoints
(`server.py:213-219`, `254-260`): status `pending`, no `result`, `error`
or `completed_at` key. -/
def initTask : TaskRec :=
  { status := TStatus.pending, result := none, error := none, completed_at := none }

/-- Atomic dict writes performed by the success path of `run_async_task`
(`server.py:57-62`), in program order: `status='running'`, then after
`func` returns, `status='completed'`, `result=...`, `completed_at=...`.
Each list element is one single-field update. -/
def successUpdates (r tstamp : String) : List (TaskRec → TaskRec) :=
  [fun k => { k with status := TStatus.running },
   fun k => { k with status := TStatus.completed },
   fun k => { k with result := some r },
   fun k => { k with completed_at := some tstamp }]

/-- Atomic dict writes performed by the failure path of `run_async_task`
(`server.py:58`, `63-66`): `status='running'`, then in the handler
`status='failed'`, `error=...`, `completed_at=...`. -/
def failureUpdates (e tstamp : String) : List (TaskRec → TaskRec) :=
  [fun k => { k with status := TStatus.running },
   fun k => { k with status := TStatus.failed },
   fun k => { k with error := some e },
   fun k => { k with completed_at := some tstamp }]

/-- Record states observable by `get_task_status` (`server.py:275-281`)
while a worker thread applies a sequence of single-field updates: the
state before any update and the state after each update.  CPython dict
item writes are individually atomic, so these and only these states are
observable by a reader. -/
def observableStates (init : TaskRec) (us : List (TaskRec → TaskRec)) : List TaskRec :=
  us.scanl (fun k u => u k) init

/-- Invariant claimed by the spec for task records: `result` present iff
`completed`, `error` present iff `failed`. -/
def taskInvariant (k : TaskRec) : Prop :=
  (k.result.isSome = true ↔ k.status = TStatus.completed) ∧
    (k.error.isSome = true ↔ k.status = TStatus.failed)

instance (k : TaskRec) : Decidable (taskInvariant k) := by
  unfold taskInvariant; infer_instance

/-- Segments of the end-to-end example in the spec. -/
def exampleSegs : List Segment :=
  [⟨0, 0, 30, "A"⟩, ⟨1, 30, 90, "B"⟩, ⟨2, 90, 150, "C"⟩]

/-- Unit-norm embedding vectors whose adjacent cosine similarities are
`0.9, 0.5, 0.9, 0.9`, matching the example as far as the code permits. -/
def exampleEmbs : List (List ℚ) :=
  [[9 / 10, 3 / 10, 3 / 10, 1 / 10], [1, 0, 0, 0], [1 / 2, 1 / 2, 1 / 2, 1 / 2],
   [4 / 5, 1 / 5, 2 / 5, 2 / 5], [41 / 50, -11 / 50, 23 / 50, 13 / 50]]

/-- Every index emitted by `boundaryScan` starting at counter `i` is
strictly greater than `i`. -/
theorem boundaryScan_lt {l : List Bool} : ∀ {i x : ℕ}, x ∈ boundaryScan i l → i < x := by
  induction l with
  | nil => intro i x h; simp [boundaryScan] at h
  | cons b bs ih =>
    intro i x h
    simp only [boundaryScan] at h
    split at h
    · rcases List.mem_cons.mp h with rfl | h2
      · omega
      · have := ih h2; omega
    · have := ih h; omega

/-- The indices emitted by `boundaryScan` are strictly increasing. -/
theorem boundaryScan_sorted (l : List Bool) : ∀ i, (boundaryScan i l).Sorted (· < ·) := by
  induction l with
  | nil => intro i; simp [boundaryScan]
  | cons b bs ih =>
    intro i
    simp only [boundaryScan]
    split
    · exact List.sorted_cons.mpr ⟨fun x hx => boundaryScan_lt hx, ih (i + 1)⟩
    · exact ih (i + 1)

/-- Boundary indices are strictly increasing. -/
theorem detect_sorted (embs : List (List ℚ)) (t : ℚ) :
    (detect_topic_boundaries embs t).Sorted (· < ·) := by
  unfold detect_topic_boundaries
  split
  · simp
  · refine List.sorted_cons.mpr ⟨fun x hx => ?_, boundaryScan_sorted _ 0⟩
    have := boundaryScan_lt hx
    omega

/-- With at least two embeddings the boundary list starts with 0. -/
theorem detect_head (embs : List (List ℚ)) (t : ℚ) (h : 2 ≤ embs.length) :
    (detect_topic_boundaries embs t).head? = some 0 := by
  unfold detect_topic_boundaries
  rw [if_neg (by omega)]
  rfl

/-- The boundary list is empty exactly when fewer than two embeddings are
given. -/
theorem detect_eq_nil_iff (embs : List (List ℚ)) (t : ℚ) :
    detect_topic_boundaries embs t = [] ↔ embs.length < 2 := by
  unfold detect_topic_boundaries
  split <;> simp_all

/-- C5 (amended): the Topic Boundary Detector returns a strictly
increasing index list; for `N ≥ 2` the first index is 0, while for
`N ≤ 1` — including `N == 1` — the result is the empty list, not `[0]`. -/
theorem detect_topic_boundaries_shape (embs : List (List ℚ)) (t : ℚ) :
    (detect_topic_boundaries embs t).Sorted (· < ·) ∧
      (detect_topic_boundaries embs t).head? =
        (if 2 ≤ embs.length then some 0 else none) ∧
      (detect_topic_boundaries embs t = [] ↔ embs.length < 2) := by
  refine ⟨detect_sorted embs t, ?_, detect_eq_nil_iff embs t⟩
  split
  · exact detect_head embs t ‹_›
  · rw [(detect_eq_nil_iff embs t).mpr (by omega)]
    rfl

/-- C5 (counterexample): on a single embedding the detector returns `[]`,
not `[0]` as the claim states for `N == 1`. -/
theorem detect_single_embedding_empty :
    detect_topic_boundaries [[(1 : ℚ)]] (18 / 25) = [] ∧ ([] : List ℕ) ≠ [0] := by
  decide

/-- C4: with `overlap = window_size` (step 0) and the non-empty segment
store `[{id 0, 0-30, "A"}]`, the windowing loop never terminates — the
model returns `none` (fuel exhausted) for every fuel budget, so no
`ConfigurationError` is raised and no window sequence is ever returned;
the cursor stays at 0 forever. -/
theorem window_loop_diverges_on_zero_step :
    (∀ fuel : ℕ, cswFuel [⟨0, 0, 30, "A"⟩] 30 30 30 fuel 0 = none) ∧
      create_sliding_windows [⟨0, 0, 30, "A"⟩] 30 30 = none := by
  have h : ∀ fuel : ℕ, cswFuel [⟨0, 0, 30, "A"⟩] 30 30 30 fuel 0 = none := by
    intro fuel
    induction fuel with
    | zero => rfl
    | succ n ih =>
      rw [cswFuel, if_pos (by norm_num)]
      rw [show ((0 : ℚ) + (30 - 30)) = 0 by norm_num, ih]
  refine ⟨h, ?_⟩
  have h1 := h 1
  simpa [create_sliding_windows] using h1

/-- C2 (counterexample): on a lecture directory where every stage
artifact already exists, a second invocation of the worker still performs
an external call — it reloads and reruns the sentence-embedding model. -/
theorem second_run_still_embeds :
    transcribe_main_calls true true = [ExtCall.embed] ∧
      transcribe_main_calls true true ≠ ([] : List ExtCall) := by
  decide

/-- C2 (amended): only the audio-extraction and transcription stages are
gated on artifact existence — re-invocation skips exactly those whose
artifact exists — while the embedding model is invoked on every run, and
the separately invoked summarization program calls the summarizer once
per chapter regardless of whether `chapters.json` exists. -/
theorem stage_gate_calls (a s : Bool) :
    (ExtCall.extractAudio ∈ transcribe_main_calls a s ↔ a = false) ∧
      (ExtCall.transcribe ∈ transcribe_main_calls a s ↔ s = false) ∧
      ExtCall.embed ∈ transcribe_main_calls a s ∧
      ExtCall.summarize ∉ transcribe_main_calls a s ∧
      (∀ n : ℕ, ExtCall.summarize ∈ summarize_main_calls n ↔ n ≠ 0) := by
  refine ⟨?_, ?_, ?_, ?_, fun n => ?_⟩
  · cases a <;> cases s <;> decide
  · cases a <;> cases s <;> decide
  · cases a <;> cases s <;> decide
  · cases a <;> cases s <;> decide
  · simp [summarize_main_calls, List.mem_replicate]

/-- List lookup into the enumerated summarization map: entry `k` is the
enrichment of chapter `k` with the outcome of the k-th external call. -/
theorem summarize_enumFrom_get (r : ℕ → Option LLMJson) (g : Bool) :
    ∀ (chs : List Chapter) (n k : ℕ),
      ((chs.enumFrom n).map (fun p => enrichOne g (r p.1) p.2)).get? k =
        (chs.get? k).map (fun c => enrichOne g (r (n + k)) c) := by
  intro chs
  induction chs with
  | nil => intro n k; simp
  | cons c cs ih =>
    intro n k
    cases k with
    | zero => simp [List.enumFrom]
    | succ k =>
      have h := ih (n + 1) k
      simp only [List.enumFrom, List.map_cons, List.get?_cons_succ, h]
      rw [show (n + 0).succ + k = n + (k + 1) from by omega]

/-- Entry `k` of `summarize_chapters` is chapter `k` enriched with the
outcome of the k-th summarizer call. -/
theorem summarize_get (chs : List Chapter) (r : ℕ → Option LLMJson) (g : Bool)
    (k : ℕ) :
    (summarize_chapters chs r g).get? k =
      (chs.get? k).map (fun c => enrichOne g (r k) c) := by
  unfold summarize_chapters
  rw [show chs.enum = chs.enumFrom 0 from rfl, summarize_enumFrom_get]
  simp

/-- C7 (amended): a chapter whose summarizer call fails is replaced by
the deterministic fallback record — on the Gemini path with summary
`"Summary unavailable due to API error."`, on the Ollama path with
summary `"Summary unavailable due to processing error."` — with title
`"Chapter {chapter_id+1}"`, importance `0.5` and the fixed key-point list
in both paths; and every other chapter of the batch is still enriched
from its own call outcome, so one failure never aborts the run. -/
theorem summarizer_fallback_isolated (chs : List Chapter) (r : ℕ → Option LLMJson)
    (j : ℕ) (c : Chapter) (hj : chs.get? j = some c) (hfail : r j = none) :
    (summarize_chapters chs r true).get? j = some
        { chapter_id := c.chapter_id, start := c.start, end_ := c.end_, text := c.text,
          title := "Chapter " ++ toString (c.chapter_id + 1),
          summary := "Summary unavailable due to API error.",
          importance := 1 / 2,
          key_points := ["Content transcribed but not summarized"] } ∧
      (summarize_chapters chs r false).get? j = some
        { chapter_id := c.chapter_id, start := c.start, end_ := c.end_, text := c.text,
          title := "Chapter " ++ toString (c.chapter_id + 1),
          summary := "Summary unavailable due to processing error.",
          importance := 1 / 2,
          key_points := ["Content transcribed but not summarized"] } ∧
      ∀ (g : Bool) (k : ℕ) (ck : Chapter), chs.get? k = some ck →
        (summarize_chapters chs r g).get? k = some (enrichOne g (r k) ck) := by
  refine ⟨?_, ?_, fun g k ck hk => ?_⟩
  · rw [summarize_get, hj, hfail]; rfl
  · rw [summarize_get, hj, hfail]; rfl
  · rw [summarize_get, hk]
    rfl

/-- C7 (witness): the fallback and isolation theorem applied to a
concrete two-chapter batch whose first summarizer call fails. -/
theorem summarizer_fallback_isolated_witness :
    ([⟨0, 0, 10, [0], "hello"⟩, ⟨1, 10, 20, [1], "world"⟩] : List Chapter).get? 0 =
        some ⟨0, 0, 10, [0], "hello"⟩ ∧
      ((fun n => if n = 0 then none
          else some ⟨some "T", some "S", some (9 / 10), some ["k"]⟩) : ℕ → Option LLMJson) 0 =
        none ∧
      ((summarize_chapters [⟨0, 0, 10, [0], "hello"⟩, ⟨1, 10, 20, [1], "world"⟩]
            (fun n => if n = 0 then none
              else some ⟨some "T", some "S", some (9 / 10), some ["k"]⟩) true).get? 0 = some
          { chapter_id := 0, start := 0, end_ := 10, text := "hello",
            title := "Chapter " ++ toString (0 + 1),
            summary := "Summary unavailable due to API error.",
            importance := 1 / 2,
            key_points := ["Content transcribed but not summarized"] } ∧
        (summarize_chapters [⟨0, 0, 10, [0], "hello"⟩, ⟨1, 10, 20, [1], "world"⟩]
            (fun n => if n = 0 then none
              else some ⟨some "T", some "S", some (9 / 10), some ["k"]⟩) false).get? 0 = some
          { chapter_id := 0, start := 0, end_ := 10, text := "hello",
            title := "Chapter " ++ toString (0 + 1),
            summary := "Summary unavailable due to processing error.",
            importance := 1 / 2,
            key_points := ["Content transcribed but not summarized"] } ∧
        ∀ (g : Bool) (k : ℕ) (ck : Chapter),
          ([⟨0, 0, 10, [0], "hello"⟩, ⟨1, 10, 20, [1], "world"⟩] : List Chapter).get? k =
              some ck →
            (summarize_chapters [⟨0, 0, 10, [0], "hello"⟩, ⟨1, 10, 20, [1], "world"⟩]
                (fun n => if n = 0 then none
                  else some ⟨some "T", some "S", some (9 / 10), some ["k"]⟩) g).get? k =
              some (enrichOne g ((fun n => if n = 0 then none
                else some ⟨some "T", some "S", some (9 / 10), some ["k"]⟩) k) ck)) :=
  ⟨rfl, rfl,
    summarizer_fallback_isolated _ _ 0 ⟨0, 0, 10, [0], "hello"⟩ rfl rfl⟩

/-- C7 (counterexample): when the Ollama path is in use a failed call is
replaced with summary `"Summary unavailable due to processing error."`,
not the `"Summary unavailable due to API error."` the claim states for
every failed summarizer call. -/
theorem ollama_fallback_message_differs :
    ((summarize_chapters [⟨0, 0, 10, [0], "T"⟩] (fun _ => none) false).map
        (fun e => e.summary)) = ["Summary unavailable due to processing error."] ∧
      "Summary unavailable due to processing error." ≠
        "Summary unavailable due to API error." := by
  exact ⟨rfl, by decide⟩

/-- C9: chapter summarization yields exactly one enriched chapter per
input chapter, in input order, and each enriched chapter keeps the raw
chapter fields `chapter_id`, `start`, `end` and `text` unchanged; the
`EnrichedChapter` type adds only `title`, `summary`, `importance` and
`key_points` (and, as in the source, does not carry `segment_ids`). -/
theorem summarize_preserves_chapter_fields (chs : List Chapter)
    (r : ℕ → Option LLMJson) (g : Bool) :
    List.Forall₂ (fun (c : Chapter) (e : EnrichedChapter) =>
        e.chapter_id = c.chapter_id ∧ e.start = c.start ∧ e.end_ = c.end_ ∧
          e.text = c.text)
      chs (summarize_chapters chs r g) := by
  unfold summarize_chapters
  rw [show chs.enum = chs.enumFrom 0 from rfl]
  generalize 0 = n
  induction chs generalizing n with
  | nil => exact List.Forall₂.nil
  | cons c cs ih =>
    exact List.Forall₂.cons ⟨rfl, rfl, rfl, rfl⟩ (ih (n + 1))

/-- C8 (counterexample): after the success path of `run_async_task` has
written `status='completed'` but before it has written `result`, the
record is observable with `status = completed` and `result` absent,
violating the claimed invariant. -/
theorem status_completed_observable_without_result :
    (observableStates initTask (successUpdates "r" "t")).get? 2 =
        some { status := TStatus.completed, result := none, error := none,
               completed_at := none } ∧
      ¬ taskInvariant { status := TStatus.completed, result := none, error := none,
                        completed_at := none } := by
  decide

/-- C8 (amended): `run_async_task` applies each transition as a sequence
of single-field updates, not one atomic update.  Starting from a record
with no `result` and no `error` (as created at submission), the final
record of both the success and the failure path satisfies the
result-iff-completed and error-iff-failed invariant, but the intermediate
record with `status = completed` and `result` still unset is among the
states observable by a status reader, and it violates the invariant. -/
theorem task_transition_invariant (init : TaskRec) (r tstamp e : String)
    (hres : init.result = none) (herr : init.error = none) :
    taskInvariant ((successUpdates r tstamp).foldl (fun k u => u k) init) ∧
      taskInvariant ((failureUpdates e tstamp).foldl (fun k u => u k) init) ∧
      { init with status := TStatus.completed } ∈
        observableStates init (successUpdates r tstamp) ∧
      ¬ taskInvariant { init with status := TStatus.completed } := by
  obtain ⟨st, res, err, ca⟩ := init
  simp only at hres herr
  subst hres herr
  refine ⟨?_, ?_, ?_, ?_⟩
  · simp [successUpdates, taskInvariant, List.foldl]
  · simp [failureUpdates, taskInvariant, List.foldl]
  · simp [observableStates, successUpdates, List.scanl]
  · simp [taskInvariant]

/-- C8 (witness): the transition theorem applied to the freshly submitted
task record. -/
theorem task_transition_invariant_witness :
    initTask.result = none ∧ initTask.error = none ∧
      (taskInvariant ((successUpdates "ok" "now").foldl (fun k u => u k) initTask) ∧
        taskInvariant ((failureUpdates "boom" "now").foldl (fun k u => u k) initTask) ∧
        { initTask with status := TStatus.completed } ∈
          observableStates initTask (successUpdates "ok" "now") ∧
        ¬ taskInvariant { initTask with status := TStatus.completed }) :=
  ⟨rfl, rfl, task_transition_invariant initTask "ok" "now" "boom" rfl rfl⟩

/-- Squared norms are nonnegative. -/
theorem normSq_nonneg (a : List ℚ) : 0 ≤ normSq a := by
  unfold normSq dot
  rw [List.zipWith_same]
  refine List.sum_nonneg ?_
  intro x hx
  obtain ⟨y, _, rfl⟩ := List.mem_map.mp hx
  exact mul_self_nonneg y

/-- The Boolean comparison used by the boundary detector agrees with the
comparison of the real cosine value against the threshold, where the NaN
value (`none`) compares `false`. -/
theorem cosSimLtB_iff_cosSim_lt (a b : List ℚ) (t : ℚ) :
    cosSimLtB a b t = true ↔ ∃ x : ℝ, cosSim a b = some x ∧ x < (t : ℝ) := by
  unfold cosSimLtB cosSim
  by_cases hq : normSq a * normSq b = 0
  · simp [hq]
  · rw [if_neg hq, if_neg hq]
    obtain ⟨ha, hb⟩ := mul_ne_zero_iff.mp hq
    have hA : (0 : ℝ) < (normSq a : ℚ) := by
      exact_mod_cast lt_of_le_of_ne (normSq_nonneg a) (Ne.symm ha)
    have hB : (0 : ℝ) < (normSq b : ℚ) := by
      exact_mod_cast lt_of_le_of_ne (normSq_nonneg b) (Ne.symm hb)
    have hsA : 0 < Real.sqrt ((normSq a : ℚ) : ℝ) := Real.sqrt_pos.mpr hA
    have hsB : 0 < Real.sqrt ((normSq b : ℚ) : ℝ) := Real.sqrt_pos.mpr hB
    have hs : 0 < Real.sqrt ((normSq a : ℚ) : ℝ) * Real.sqrt ((normSq b : ℚ) : ℝ) :=
      mul_pos hsA hsB
    have hs2 : (Real.sqrt ((normSq a : ℚ) : ℝ) * Real.sqrt ((normSq b : ℚ) : ℝ)) ^ 2 =
        ((normSq a : ℚ) : ℝ) * ((normSq b : ℚ) : ℝ) := by
      rw [mul_pow, Real.sq_sqrt hA.le, Real.sq_sqrt hB.le]
    simp only [Option.some.injEq, exists_eq_left']
    rw [div_lt_iff₀ hs]
    split_ifs with ht
    · simp only [Bool.or_eq_true, decide_eq_true_eq]
      constructor
      · rintro (hd | hd)
        · have hd' : ((dot a b : ℚ) : ℝ) < 0 := by exact_mod_cast hd
          have hts : (0 : ℝ) ≤ (t : ℚ) * (Real.sqrt _ * Real.sqrt _) :=
            mul_nonneg (by exact_mod_cast ht) hs.le
          exact lt_of_lt_of_le hd' hts
        · refine lt_of_pow_lt_pow_left₀ 2 (mul_nonneg (by exact_mod_cast ht) hs.le) ?_
          rw [mul_pow, hs2]
          exact_mod_cast hd
      · intro h
        by_cases hd : dot a b < 0
        · exact Or.inl hd
        · refine Or.inr ?_
          have hd' : (0 : ℝ) ≤ ((dot a b : ℚ) : ℝ) := by
            exact_mod_cast not_lt.mp hd
          have hsq : ((dot a b : ℚ) : ℝ) ^ 2 <
              (((t : ℚ) : ℝ) * (Real.sqrt ((normSq a : ℚ) : ℝ) *
                Real.sqrt ((normSq b : ℚ) : ℝ))) ^ 2 :=
            pow_lt_pow_left₀ h hd' two_ne_zero
          rw [mul_pow, hs2] at hsq
          exact_mod_cast hsq
    · simp only [Bool.and_eq_true, decide_eq_true_eq]
      have ht' : ((t : ℚ) : ℝ) < 0 := by exact_mod_cast not_le.mp ht
      have hts : ((t : ℚ) : ℝ) * (Real.sqrt _ * Real.sqrt _) < 0 :=
        mul_neg_of_neg_of_pos ht' hs
      constructor
      · rintro ⟨hd, hsq⟩
        have hd' : ((dot a b : ℚ) : ℝ) < 0 := by exact_mod_cast hd
        rw [← neg_lt_neg_iff]
        refine lt_of_pow_lt_pow_left₀ 2 (by linarith) ?_
        rw [neg_sq, neg_sq, mul_pow, hs2]
        exact_mod_cast hsq
      · intro h
        have hd : ((dot a b : ℚ) : ℝ) < 0 := lt_trans h hts
        refine ⟨by exact_mod_cast hd, ?_⟩
        have h' : (-(((t : ℚ) : ℝ) * (Real.sqrt ((normSq a : ℚ) : ℝ) *
              Real.sqrt ((normSq b : ℚ) : ℝ)))) ^ 2 < (-((dot a b : ℚ) : ℝ)) ^ 2 :=
          pow_lt_pow_left₀ (neg_lt_neg h) (by linarith) two_ne_zero
        rw [neg_sq, neg_sq, mul_pow, hs2] at h'
        exact_mod_cast h'

/-- The float cosine is NaN exactly when one of the vectors has zero norm. -/
theorem cosSim_eq_none_iff (a b : List ℚ) :
    cosSim a b = none ↔ normSq a = 0 ∨ normSq b = 0 := by
  unfold cosSim
  by_cases h : normSq a * normSq b = 0
  · rw [if_pos h]
    simpa using mul_eq_zero.mp h
  · rw [if_neg h]
    simpa using mul_ne_zero_iff.mp h

/-- Cosine of a vector with itself: 1 for non-zero norm, NaN otherwise. -/
theorem cosSim_self (a : List ℚ) :
    cosSim a a = (if normSq a = 0 then none else some 1) := by
  unfold cosSim
  by_cases h : normSq a = 0
  · rw [if_pos (by rw [h]; ring), if_pos h]
  · rw [if_neg (mul_ne_zero h h), if_neg h]
    have hA : (0 : ℝ) ≤ ((normSq a : ℚ) : ℝ) := by exact_mod_cast normSq_nonneg a
    have hA' : ((normSq a : ℚ) : ℝ) ≠ 0 := by exact_mod_cast h
    rw [Real.mul_self_sqrt hA]
    congr 1
    show ((normSq a : ℚ) : ℝ) / ((normSq a : ℚ) : ℝ) = 1
    exact div_self hA'

/-- C6 (amended): the similarity of adjacent windows is the float value
`dot(a,b)/(‖a‖·‖b‖)` — modelled by `cosSim`, which is `some` of that real
quotient — except that when either vector has zero norm the division is
`0.0/0.0` and the value is NaN (`none`), not `0`; the detector's
comparison `sim < threshold` is then `false`, so a zero-norm pair never
forces a boundary; and a vector of non-zero norm has similarity exactly
`1` with itself. -/
theorem cosine_similarity_semantics (a b : List ℚ) (t : ℚ) :
    (cosSimLtB a b t = true ↔ ∃ x : ℝ, cosSim a b = some x ∧ x < (t : ℝ)) ∧
      (cosSim a b = none ↔ normSq a = 0 ∨ normSq b = 0) ∧
      cosSim a a = (if normSq a = 0 then none else some 1) :=
  ⟨cosSimLtB_iff_cosSim_lt a b t, cosSim_eq_none_iff a b, cosSim_self a⟩

/-- C6 (counterexample): for the zero vector paired with `[1, 0]` and
threshold `0.72 > 0`, the similarity is NaN (`none`), not `0`, and no
boundary is forced: the detector returns `[0]` instead of the `[0, 1]`
the claim implies. -/
theorem zero_norm_no_boundary :
    cosSim [(0 : ℚ), 0] [1, 0] = none ∧
      cosSim [(0 : ℚ), 0] [1, 0] ≠ some 0 ∧
      detect_topic_boundaries [[(0 : ℚ), 0], [1, 0]] (18 / 25) = [0] ∧
      ([0] : List ℕ) ≠ [0, 1] := by
  have h : cosSim [(0 : ℚ), 0] [1, 0] = none := by
    unfold cosSim
    rw [if_pos (by simp [normSq, dot])]
  refine ⟨h, by simp [h], ?_, by decide⟩
  norm_num [detect_topic_boundaries, boundaryScan, cosSimLtB, normSq, dot]

/-- Cosine of two unit-normSq vectors is just their dot product. -/
theorem cosSim_of_unit (a b : List ℚ) (ha : normSq a = 1) (hb : normSq b = 1) :
    cosSim a b = some ((dot a b : ℚ) : ℝ) := by
  unfold cosSim
  rw [ha, hb]
  norm_num [Real.sqrt_one]

/-- The Window Builder on the example segments with `window_size = 60`,
`overlap = 30` yields five windows, at cursor positions 0, 30, 60, 90 and
120. -/
theorem example_windows_eval :
    create_sliding_windows exampleSegs 60 30 =
      some [⟨0, 60, "A B", [0, 1]⟩, ⟨30, 90, "B", [1]⟩, ⟨60, 120, "B C", [1, 2]⟩,
        ⟨90, 150, "C", [2]⟩, ⟨120, 150, "C", [2]⟩] := by
  norm_num [exampleSegs, create_sliding_windows, cswFuel, mkWindow, segInWindow]
  decide

/-- On the example embeddings with threshold `0.72` the only similarity
below threshold is the second one (`0.5`), so the boundaries are `[0, 2]`. -/
theorem example_boundaries_eval :
    detect_topic_boundaries exampleEmbs (18 / 25) = [0, 2] := by
  norm_num [exampleEmbs, detect_topic_boundaries, boundaryScan, cosSimLtB, normSq, dot]

/-- C3 (counterexample): on the example segments with `window_size = 60`
and `overlap = 30` the Window Builder does not return the three windows
`[0-60 "A B"], [30-120 "B C"], [90-150 "C"]` claimed — the cursor
advances in steps of 30, so five windows are produced. -/
theorem example_windows_not_three :
    create_sliding_windows exampleSegs 60 30 ≠
      some [⟨0, 60, "A B", [0, 1]⟩, ⟨30, 120, "B C", [1, 2]⟩, ⟨90, 150, "C", [2]⟩] := by
  rw [example_windows_eval]
  intro h
  have hlen := congrArg (fun o => (Option.getD o []).length) h
  simp at hlen

/-- C3 (amended): on the example segments the Window Builder produces the
five windows `[0-60 "A B"], [30-90 "B"], [60-120 "B C"], [90-150 "C"],
[120-150 "C"]`; with unit embeddings whose adjacent similarities are
`0.9, 0.5, 0.9, 0.9` and threshold `0.72` the boundaries are `[0, 2]` and
the pipeline yields two chapters: chapter 0 over segments `{0, 1}` with
reconstructed text `"A B"` spanning 0-90, and chapter 1 over segments
`{1, 2}` with reconstructed text `"B C"` spanning 60-150. -/
theorem example_pipeline_behaviour :
    create_sliding_windows exampleSegs 60 30 =
        some [⟨0, 60, "A B", [0, 1]⟩, ⟨30, 90, "B", [1]⟩, ⟨60, 120, "B C", [1, 2]⟩,
          ⟨90, 150, "C", [2]⟩, ⟨120, 150, "C", [2]⟩] ∧
      cosSim [9 / 10, 3 / 10, 3 / 10, 1 / 10] [1, 0, 0, 0] = some ((9 : ℝ) / 10) ∧
      cosSim [1, 0, 0, 0] [1 / 2, 1 / 2, 1 / 2, 1 / 2] = some ((1 : ℝ) / 2) ∧
      cosSim [1 / 2, 1 / 2, 1 / 2, 1 / 2] [4 / 5, 1 / 5, 2 / 5, 2 / 5] =
        some ((9 : ℝ) / 10) ∧
      cosSim [4 / 5, 1 / 5, 2 / 5, 2 / 5] [41 / 50, -11 / 50, 23 / 50, 13 / 50] =
        some ((9 : ℝ) / 10) ∧
      detect_topic_boundaries exampleEmbs (18 / 25) = [0, 2] ∧
      segment_pipeline exampleSegs exampleEmbs 60 30 (18 / 25) =
        some [⟨0, 0, 90, [0, 1], "A B"⟩, ⟨1, 60, 150, [1, 2], "B C"⟩] := by
  refine ⟨example_windows_eval, ?_, ?_, ?_, ?_, example_boundaries_eval, ?_⟩
  · rw [cosSim_of_unit _ _ (by norm_num [normSq, dot]) (by norm_num [normSq, dot])]
    norm_num [dot]
  · rw [cosSim_of_unit _ _ (by norm_num [normSq, dot]) (by norm_num [normSq, dot])]
    norm_num [dot]
  · rw [cosSim_of_unit _ _ (by norm_num [normSq, dot]) (by norm_num [normSq, dot])]
    norm_num [dot]
  · rw [cosSim_of_unit _ _ (by norm_num [normSq, dot]) (by norm_num [normSq, dot])]
    norm_num [dot]
  · unfold segment_pipeline
    rw [example_windows_eval, example_boundaries_eval]
    norm_num [merge_windows_into_chapters, sortedDedup, List.insertionSort,
      List.orderedInsert, List.dedup, reconstruct_chapter_text, segDict, exampleSegs]
    decide

/-- C1 (counterexample): on segments `[{0, 0-40, "A"}, {1, 40-90, "B"}]`
with `window_size = 60`, `overlap = 30`, and near-orthogonal embeddings
putting a boundary after every window, the pipeline yields three
chapters, and segment id 0 appears in the `segment_ids` of two different
chapters (chapters 0 and 1), so the chapters do not partition the
segment ids. -/
theorem segment_in_two_chapters :
    segment_pipeline [⟨0, 0, 40, "A"⟩, ⟨1, 40, 90, "B"⟩] [[1, 0], [0, 1], [1, 0]]
        60 30 (18 / 25) =
      some [⟨0, 0, 60, [0, 1], "A B"⟩, ⟨1, 30, 90, [0, 1], "A B"⟩,
        ⟨2, 60, 90, [1], "B"⟩] ∧
      ([⟨0, 0, 60, [0, 1], "A B"⟩, ⟨1, 30, 90, [0, 1], "A B"⟩,
          ⟨2, 60, 90, [1], "B"⟩] : List Chapter).countP
        (fun c => decide (0 ∈ c.segment_ids)) = 2 ∧
      (2 : ℕ) ≠ 1 := by
  refine ⟨?_, by decide, by decide⟩
  unfold segment_pipeline
  norm_num [create_sliding_windows, cswFuel, mkWindow, segInWindow,
    detect_topic_boundaries, boundaryScan, cosSimLtB, normSq, dot,
    merge_windows_into_chapters, sortedDedup, List.insertionSort,
    List.orderedInsert, List.dedup, reconstruct_chapter_text, segDict]
  decide

/-- Membership is preserved by `sortedDedup`. -/
theorem mem_sortedDedup {l : List ℕ} {x : ℕ} : x ∈ sortedDedup l ↔ x ∈ l := by
  unfold sortedDedup
  rw [(List.perm_insertionSort _ _).mem_iff]
  exact List.mem_dedup

/-- The output of `sortedDedup` has no duplicates. -/
theorem sortedDedup_nodup (l : List ℕ) : (sortedDedup l).Nodup :=
  (List.perm_insertionSort _ _).nodup_iff.mpr l.nodup_dedup

/-- Consecutive boundary slices concatenate to the suffix of the window
list starting at the first boundary: nothing between the first boundary
and the end of the list is lost. -/
theorem slices_flatten {α : Type _} (l : List α) :
    ∀ bs : List ℕ, List.Chain' (· ≤ ·) bs →
      ((List.zip bs (bs.tail ++ [l.length])).map
          (fun p => (l.drop p.1).take (p.2 - p.1))).flatten =
        l.drop ((bs.head?).getD l.length) := by
  intro bs
  induction bs with
  | nil => intro _; simp
  | cons b1 tl ih =>
    intro hchain
    cases tl with
    | nil =>
      simp only [List.tail_cons, List.nil_append, List.zip_cons_cons, List.zip_nil_right,
        List.map_cons, List.map_nil, List.flatten_cons, List.flatten_nil, List.append_nil,
        List.head?_cons, Option.getD_some]
      exact List.take_of_length_le (by simp)
    | cons b2 rest =>
      obtain ⟨h12, hchain2⟩ := List.chain'_cons.mp hchain
      have ihr := ih hchain2
      simp only [List.tail_cons, List.head?_cons, Option.getD_some] at ihr ⊢
      rw [show (b2 :: rest) ++ [l.length] = b2 :: (rest ++ [l.length]) from rfl,
        List.zip_cons_cons, List.map_cons, List.flatten_cons, ihr]
      have hdd : l.drop b2 = (l.drop b1).drop (b2 - b1) := by
        rw [List.drop_drop]
        congr 1
        omega
      rw [hdd, List.take_append_drop]

/-- Every chapter built by the assembler has duplicate-free segment ids. -/
theorem merge_chapter_ids_nodup (ws : List Window) (bs : List ℕ) :
    ∀ c ∈ merge_windows_into_chapters ws bs, c.segment_ids.Nodup := by
  intro c hc
  unfold merge_windows_into_chapters at hc
  obtain ⟨p, _, hf⟩ := List.mem_filterMap.mp hc
  split at hf
  · exact absurd hf (by simp)
  · have h := Option.some.inj hf
    subst h
    exact sortedDedup_nodup _

/-- A segment id occurs in some chapter of the assembler output exactly
when it occurs in some source window, provided the boundary list is
weakly increasing and starts at 0. -/
theorem merge_mem_ids_iff (ws : List Window) (bs : List ℕ)
    (hchain : List.Chain' (· ≤ ·) bs) (hhead : bs.head? = some 0) (i : ℕ) :
    (∃ c ∈ merge_windows_into_chapters ws bs, i ∈ c.segment_ids) ↔
      ∃ w ∈ ws, i ∈ w.segment_ids := by
  constructor
  · rintro ⟨c, hc, hic⟩
    unfold merge_windows_into_chapters at hc
    obtain ⟨p, hp, hf⟩ := List.mem_filterMap.mp hc
    split at hf
    · exact absurd hf (by simp)
    · rename_i w rest heq
      have h := Option.some.inj hf
      subst h
      simp only at hic
      rw [mem_sortedDedup, List.mem_flatten] at hic
      obtain ⟨lst, hlst, hil⟩ := hic
      obtain ⟨w', hw', rfl⟩ := List.mem_map.mp hlst
      refine ⟨w', ?_, hil⟩
      have hmem : w' ∈ (ws.drop p.2.1).take (p.2.2 - p.2.1) := by
        rw [heq]
        exact hw'
      exact ((List.take_sublist _ _).trans (List.drop_sublist _ _)).subset hmem
  · rintro ⟨w, hw, hiw⟩
    have hcov := slices_flatten ws bs hchain
    rw [hhead] at hcov
    simp only [Option.getD_some, List.drop_zero] at hcov
    rw [← hcov, List.mem_flatten] at hw
    obtain ⟨sl, hsl, hwsl⟩ := hw
    obtain ⟨q, hq, rfl⟩ := List.mem_map.mp hsl
    obtain ⟨n, hn⟩ := List.mem_iff_getElem?.mp hq
    have hqe : (n, q) ∈ (List.zip bs (bs.tail ++ [ws.length])).enum :=
      List.mem_enum_iff_getElem?.mpr hn
    rcases hslice : (ws.drop q.1).take (q.2 - q.1) with _ | ⟨w', rest⟩
    · rw [hslice] at hwsl
      simp at hwsl
    · rw [hslice] at hwsl
      refine ⟨⟨n, w'.start, ((w' :: rest).getLast (List.cons_ne_nil w' rest)).end_,
          sortedDedup (((w' :: rest).map (·.segment_ids)).flatten),
          String.intercalate " " ((w' :: rest).map (·.text))⟩,
        ?_, ?_⟩
      · unfold merge_windows_into_chapters
        refine List.mem_filterMap.mpr ⟨(n, q), hqe, ?_⟩
        dsimp only
        rw [hslice]
      · simp only
        rw [mem_sortedDedup, List.mem_flatten]
        exact ⟨w.segment_ids, List.mem_map.mpr ⟨w, hwsl, rfl⟩, hiw⟩

/-- C1 (amended): when there are at least two windows (so the detector
emits boundaries starting at 0), a segment id occurs in the
`segment_ids` of some chapter exactly when it occurs in some source
window — no id is dropped — and within each chapter the ids are
duplicate-free; but an id may occur in the `segment_ids` of two
different chapters, because overlapping windows sharing a segment can
fall on opposite sides of a boundary (see the counterexample). -/
theorem chapters_cover_window_segments (ws : List Window) (embs : List (List ℚ))
    (t : ℚ) (hlen : embs.length = ws.length) (h2 : 2 ≤ ws.length) :
    (∀ c ∈ merge_windows_into_chapters ws (detect_topic_boundaries embs t),
        c.segment_ids.Nodup) ∧
      ∀ i : ℕ,
        (∃ c ∈ merge_windows_into_chapters ws (detect_topic_boundaries embs t),
            i ∈ c.segment_ids) ↔
          ∃ w ∈ ws, i ∈ w.segment_ids := by
  have hchain : List.Chain' (· ≤ ·) (detect_topic_boundaries embs t) :=
    (List.Pairwise.chain' (detect_sorted embs t)).imp fun {a b} h => le_of_lt h
  have hhead : (detect_topic_boundaries embs t).head? = some 0 :=
    detect_head embs t (by omega)
  exact ⟨merge_chapter_ids_nodup _ _, fun i => merge_mem_ids_iff ws _ hchain hhead i⟩

/-- C1 (witness): the coverage theorem applied to two concrete windows
and two concrete embeddings. -/
theorem chapters_cover_window_segments_witness :
    ([[(1 : ℚ)], [0]] : List (List ℚ)).length =
        ([⟨0, 30, "a", [0]⟩, ⟨30, 60, "b", [1]⟩] : List Window).length ∧
      2 ≤ ([⟨0, 30, "a", [0]⟩, ⟨30, 60, "b", [1]⟩] : List Window).length ∧
      ((∀ c ∈ merge_windows_into_chapters [⟨0, 30, "a", [0]⟩, ⟨30, 60, "b", [1]⟩]
            (detect_topic_boundaries [[(1 : ℚ)], [0]] (18 / 25)),
          c.segment_ids.Nodup) ∧
        ∀ i : ℕ,
          (∃ c ∈ merge_windows_into_chapters [⟨0, 30, "a", [0]⟩, ⟨30, 60, "b", [1]⟩]
              (detect_topic_boundaries [[(1 : ℚ)], [0]] (18 / 25)),
              i ∈ c.segment_ids) ↔
            ∃ w ∈ ([⟨0, 30, "a", [0]⟩, ⟨30, 60, "b", [1]⟩] : List Window),
              i ∈ w.segment_ids) :=
  ⟨rfl, by norm_num,
    chapters_cover_window_segments [⟨0, 30, "a", [0]⟩, ⟨30, 60, "b", [1]⟩]
      [[(1 : ℚ)], [0]] (18 / 25) rfl (by norm_num)⟩

/-- When the store has pairwise distinct ids the python dict lookup
(last occurrence wins) agrees with first-occurrence search. -/
theorem segDict_eq_find_of_nodup (segs : List Segment)
    (hnd : (segs.map (·.id)).Nodup) (i : ℕ) :
    segDict segs i = segs.find? (fun s => s.id == i) := by
  induction segs with
  | nil => rfl
  | cons s rest ih =>
    simp only [List.map_cons, List.nodup_cons] at hnd
    obtain ⟨hs, hrest⟩ := hnd
    unfold segDict
    rw [ih hrest]
    by_cases hi : i = s.id
    · have hnone : rest.find? (fun x => x.id == i) = none := by
        rw [List.find?_eq_none]
        intro x hx
        simp only [beq_iff_eq]
        intro hxi
        exact hs (List.mem_map.mpr ⟨x, hx, by rw [hxi, hi]⟩)
      rw [hnone, List.find?_cons_of_pos _ (by simp [hi])]
      simp [hi]
    · rw [List.find?_cons_of_neg _ (by simp only [beq_iff_eq]; exact fun h => hi h.symm)]
      split
      · rename_i r heq
        exact heq.symm
      · rename_i heq
        rw [if_neg hi]
        exact heq.symm

/-- C10: chapter text reconstruction space-joins the texts of exactly
those ids of `segment_ids` that occur in the segment store, in the order
listed in `segment_ids`; an id absent from the store is silently skipped
(it contributes nothing and raises no error).  The store is assumed to
have pairwise distinct ids, as transcript stores do. -/
theorem reconstruct_chapter_text_spec (c : Chapter) (segs : List Segment)
    (hnd : (segs.map (·.id)).Nodup) :
    reconstruct_chapter_text c segs =
      String.intercalate " "
        (c.segment_ids.filterMap
          (fun i => (segs.find? (fun s => s.id == i)).map (·.text))) := by
  unfold reconstruct_chapter_text
  congr 1
  apply List.filterMap_congr
  intro i _
  rw [segDict_eq_find_of_nodup segs hnd i]

/-- C10 (witness): reconstruction over a concrete two-segment store with
the chapter listing ids `[2, 0, 5]`, where id 5 is absent and skipped. -/
theorem reconstruct_chapter_text_spec_witness :
    ((([⟨0, 0, 30, "A"⟩, ⟨2, 30, 60, "B"⟩] : List Segment).map (·.id)).Nodup) ∧
      reconstruct_chapter_text ⟨0, 0, 60, [2, 0, 5], "x"⟩
          [⟨0, 0, 30, "A"⟩, ⟨2, 30, 60, "B"⟩] =
        String.intercalate " "
          ((⟨0, 0, 60, [2, 0, 5], "x"⟩ : Chapter).segment_ids.filterMap
            (fun i => (([⟨0, 0, 30, "A"⟩, ⟨2, 30, 60, "B"⟩] : List Segment).find?
              (fun s => s.id == i)).map (·.text))) :=
  ⟨by decide,
    reconstruct_chapter_text_spec ⟨0, 0, 60, [2, 0, 5], "x"⟩
      [⟨0, 0, 30, "A"⟩, ⟨2, 30, 60, "B"⟩] (by decide)⟩

end EchoNote
